import Mathlib

/-!
Shallow embedding of the resource-tree synchronization core of frodo-lib
(src/ops/ServiceOps.ts: the service export/import/delete operations and the
script import operations), together with theorems settling the spec claims.

The remote backend is modelled as a deterministic oracle of pure functions
(one per remote API call); every embedded operation returns its value
together with the trace of remote calls and console prints it issues.  JS
`await Promise.all(xs.map(f))` starts every `f x` before any rejection is
observed, so in the embedding every element's calls appear in the trace
regardless of the other elements' outcomes, and the combined value is the
list of results, or the first (in list order) rejection when one occurred.
The trace is a deterministic linearization: calls the source issues
concurrently appear in list order.
-/

set_option linter.unusedVariables false

namespace ServiceOps

/-- A JS exception as the source observes it: an HTTP error response carries
`error.response.status` and `error.response.data.message`; a TypeError (or any
non-HTTP throw) has no `response`, so both optional accessors are `none`. -/
inductive Err where
  | http (status : Nat) (message : String) : Err
  | typeError (message : String) : Err
deriving Repr, DecidableEq

/-- `error.response?.status` -/
def Err.status : Err → Option Nat
  | .http s _ => some s
  | .typeError _ => none

/-- `error.response?.data?.message` -/
def Err.respMessage : Err → Option String
  | .http _ m => some m
  | .typeError _ => none

/-- Renders an optional message the way JS template interpolation renders
a possibly-undefined value. -/
def optMsg : Option String → String
  | some m => m
  | none => "undefined"

/-- `_type` reference carried by services and descendents (`_type._id`). -/
structure TypeRef where
  _id : String
deriving Repr, DecidableEq

/-- A service next descendent: `{ _id, _type: { _id }, ...payload }`.
The payload beyond the two identifiers is opaque to the operations. -/
structure ServiceNextDescendent where
  _id : String
  _type : TypeRef
  payload : List (String × String)
deriving Repr, DecidableEq

/-- A service object as handled by `putFullService` and friends
(`AmServiceSkeleton` plus the optional `nextDescendents` of `FullService`).
Optional fields model JS property presence: `delete obj.f` sets `f` to
`none`.  Fields beyond the ones the operations touch are the opaque
`payload`. -/
structure FullService where
  _id : String
  _type : TypeRef
  _rev : Option String
  enabled : Option Bool
  nextDescendents : Option (List ServiceNextDescendent)
  payload : List (String × String)
deriving Repr, DecidableEq

/-- One remote call or console print, as recorded in an operation's trace. -/
inductive Event where
  | listServices
  | getSvc (serviceId : String)
  | getDescendents (serviceId : String)
  | putSvc (serviceId : String) (body : FullService)
  | putDescendent (serviceId descType descId : String) (body : ServiceNextDescendent)
  | deleteDescendent (serviceId descType descId : String)
  | deleteSvc (serviceId : String)
  | print (msg level : String)
deriving Repr, DecidableEq

/-- The remote resource service (src/api/ServiceApi.ts) as a deterministic
oracle: each embedded remote call returns a value or throws an `Err`. -/
structure Oracle where
  getListOfServices : Except Err (List FullService)
  getService : String → Except Err FullService
  getServiceDescendents : String → Except Err (List ServiceNextDescendent)
  putService : String → FullService → Except Err FullService
  putServiceNextDescendent :
    String → String → String → ServiceNextDescendent → Except Err ServiceNextDescendent
  deleteService : String → Except Err Unit
  deleteServiceNextDescendent : String → String → String → Except Err Unit

/-- The rejection `await Promise.all` surfaces from a list of settled
outcomes: the first error, if any. -/
def firstError {α : Type} : List (Except Err α) → Option Err
  | [] => none
  | .error e :: _ => some e
  | .ok _ :: rest => firstError rest

/-- `deleteFullService(serviceId)`: list the current descendents, issue every
descendent delete (all started by `map`, so all appear in the trace), and
await them; `deleteService` runs only when that combined await did not
reject. -/
def deleteFullService (o : Oracle) (serviceId : String) :
    Except Err Unit × List Event :=
  match o.getServiceDescendents serviceId with
  | .error e => (.error e, [Event.getDescendents serviceId])
  | .ok serviceNextDescendentData =>
    let childEvents := serviceNextDescendentData.map (fun nextDescendent =>
      Event.deleteDescendent serviceId nextDescendent._type._id nextDescendent._id)
    match firstError (serviceNextDescendentData.map (fun nextDescendent =>
        o.deleteServiceNextDescendent serviceId nextDescendent._type._id nextDescendent._id)) with
    | some e => (.error e, Event.getDescendents serviceId :: childEvents)
    | none =>
      match o.deleteService serviceId with
      | .error e =>
          (.error e, Event.getDescendents serviceId :: childEvents ++ [Event.deleteSvc serviceId])
      | .ok _ =>
          (.ok (), Event.getDescendents serviceId :: childEvents ++ [Event.deleteSvc serviceId])

/-- The three `delete fullServiceData.*` statements at the top of
`putFullService`: the JS object is mutated in place, so the caller's
aliased object carries this shape after the call. -/
def stripServiceData (d : FullService) : FullService :=
  { d with nextDescendents := none, _rev := none, enabled := none }

/-- Whether an error matches the pre-clean swallow signature
(`status === 404 && message === 'Not Found'`). -/
def isNotFound (e : Err) : Bool :=
  e.status = some 404 && e.respMessage = some "Not Found"

/-- Whether an error matches the capability-gap signature
(`status === 403` with the exact Identity Cloud message). -/
def isCloudGap (e : Err) : Bool :=
  e.status = some 403 &&
    e.respMessage = some "This operation is not available in ForgeRock Identity Cloud."

/-- The `if (clean) { try { await deleteFullService ... } catch ... }` block of
`putFullService`: the delete attempt's calls always happen; a 404/Not Found
rejection is swallowed silently, any other rejection adds an error print;
either way the block completes normally. -/
def cleanPhase (o : Oracle) (serviceId : String) : List Event :=
  match deleteFullService o serviceId with
  | (.ok _, evs) => evs
  | (.error e, evs) =>
    if isNotFound e then evs
    else evs ++ [Event.print
      ("Error deleting service " ++ serviceId ++ " before import: " ++ optMsg e.respMessage)
      "error"]

/-- One element of the descendent `Promise.all` fan-out in `putFullService`:
the put is issued; its own try/catch prints on failure and never rejects. -/
def putDescItem (o : Oracle) (serviceId : String) (descendent : ServiceNextDescendent) :
    List Event :=
  let ev := Event.putDescendent serviceId descendent._type._id descendent._id descendent
  match o.putServiceNextDescendent serviceId descendent._type._id descendent._id descendent with
  | .ok _ => [ev]
  | .error e =>
    [ev, Event.print
      ("Put descendent " ++ descendent._id ++ " of service " ++ serviceId ++ ": "
        ++ optMsg e.respMessage)
      "error"]

/-- `Except` as a sum, to derive decidable equality of outcomes. -/
def exceptToSum {ε α : Type} : Except ε α → ε ⊕ α
  | .error e => .inl e
  | .ok a => .inr a

instance {ε α : Type} [DecidableEq ε] [DecidableEq α] : DecidableEq (Except ε α) :=
  fun a b =>
    decidable_of_iff (exceptToSum a = exceptToSum b)
      (by cases a <;> cases b <;> simp [exceptToSum])

/-- What a call to `putFullService` leaves behind: the promise's outcome
(`.ok (some r)` = resolved to the parent put's result, `.ok none` = resolved
to `undefined`, `.error` = rejected), the trace, and the state of the
caller's aliased `fullServiceData` object after the call. -/
structure PutFullOutcome where
  result : Except Err (Option FullService)
  events : List Event
  dataAfter : FullService
deriving Repr, DecidableEq

/-- `putFullService(serviceId, fullServiceData, clean)`: read
`nextDescendents`, delete the three fields in place, optionally pre-clean,
`await putService` (a rejection propagates), then return the parent result
when `nextDescendents.length === 0`, throw a TypeError when
`nextDescendents` is `undefined` (reading `.length`), and otherwise fan out
the descendent puts (each isolated by its own catch) and fall off the end,
resolving to `undefined`. -/
def putFullService (o : Oracle) (serviceId : String) (fullServiceData : FullService)
    (clean : Bool) : PutFullOutcome :=
  let nextDescendents := fullServiceData.nextDescendents
  let dataStripped := stripServiceData fullServiceData
  let cleanEvents := if clean then cleanPhase o serviceId else []
  match o.putService serviceId dataStripped with
  | .error e =>
      ⟨.error e, cleanEvents ++ [Event.putSvc serviceId dataStripped], dataStripped⟩
  | .ok result =>
    match nextDescendents with
    | none =>
        ⟨.error (Err.typeError "Cannot read properties of undefined, reading length"),
          cleanEvents ++ [Event.putSvc serviceId dataStripped], dataStripped⟩
    | some [] =>
        ⟨.ok (some result), cleanEvents ++ [Event.putSvc serviceId dataStripped], dataStripped⟩
    | some descs =>
        ⟨.ok none,
          cleanEvents ++ [Event.putSvc serviceId dataStripped]
            ++ (descs.map (putDescItem o serviceId)).flatten,
          dataStripped⟩

/-- The value one element of the `getFullServices` fan-out resolves to:
`Promise.all([getService, getServiceDescendents])` merged into a service
with `nextDescendents`, or `none` when the try/catch caught (the catch
returns `undefined` on every error). -/
def fetchItemValue (o : Oracle) (listItem : FullService) : Option FullService :=
  match o.getService listItem._id, o.getServiceDescendents listItem._id with
  | .ok service, .ok nextDescendents =>
      some { service with nextDescendents := some nextDescendents }
  | _, _ => none

/-- The error the element's catch observes, if either fetch rejected
(`Promise.all` surfaces the first in list order). -/
def fetchItemErr (o : Oracle) (listItem : FullService) : Option Err :=
  match o.getService listItem._id, o.getServiceDescendents listItem._id with
  | .error e, _ => some e
  | .ok _, .error e => some e
  | .ok _, .ok _ => none

/-- The trace of one element of the `getFullServices` fan-out: both fetches
are issued; a caught error prints unless it matches the capability-gap
signature. -/
def fetchItemEvents (o : Oracle) (listItem : FullService) : List Event :=
  let evs := [Event.getSvc listItem._id, Event.getDescendents listItem._id]
  match fetchItemErr o listItem with
  | none => evs
  | some e =>
    if isCloudGap e then evs
    else evs ++ [Event.print
      ("Unable to retrieve data for " ++ listItem._id ++ " with error: "
        ++ optMsg e.respMessage)
      "error"]

/-- `getFullServices()`: list the services (a rejection here propagates),
fan out the per-item fetches, and filter `undefined` out of the collected
results. -/
def getFullServices (o : Oracle) : Except Err (List FullService) × List Event :=
  match o.getListOfServices with
  | .error e => (.error e, [Event.listServices])
  | .ok serviceList =>
      (.ok ((serviceList.map (fetchItemValue o)).reduceOption),
        Event.listServices :: (serviceList.map (fetchItemEvents o)).flatten)

/-- `ServiceExportInterface`: the envelope `{ meta, service: { [id]: data } }`,
the service map as an association list. -/
structure ServiceExportInterface where
  meta : List (String × String)
  service : List (String × FullService)
deriving Repr, DecidableEq

/-- `importData.service[serviceId]` -/
def lookupEntry (l : List (String × FullService)) (k : String) : Option FullService :=
  match l with
  | [] => none
  | (k2, v) :: rest => if k2 = k then some v else lookupEntry rest k

/-- The envelope's service map after the entry at `k` (aliased by the import)
has been mutated to `v`. -/
def replaceEntry (l : List (String × FullService)) (k : String) (v : FullService) :
    List (String × FullService) :=
  l.map (fun p => if p.1 = k then (k, v) else p)

/-- What a call to `importService` leaves behind, including the state of the
caller's envelope after the call (its entry is aliased by `putFullService`,
which mutates it). -/
structure ImportOutcome where
  result : Except Err (Option FullService)
  events : List Event
  importDataAfter : ServiceExportInterface
deriving Repr, DecidableEq

/-- `importService(serviceId, importData, clean)`: look up the entry and hand
it (by reference) to `putFullService`.  A missing entry makes
`putFullService` read `.nextDescendents` of `undefined`, a TypeError. -/
def importService (o : Oracle) (serviceId : String) (importData : ServiceExportInterface)
    (clean : Bool) : ImportOutcome :=
  match lookupEntry importData.service serviceId with
  | none =>
      ⟨.error (Err.typeError "Cannot read properties of undefined, reading nextDescendents"),
        [], importData⟩
  | some serviceData =>
      let r := putFullService o serviceId serviceData clean
      ⟨r.result, r.events,
        { importData with service := replaceEntry importData.service serviceId r.dataAfter }⟩

/-- `putFullServices(serviceEntries, clean)`: a sequential loop, one
`putFullService` per entry, each inside its own try/catch.  A resolved item
pushes its result (possibly `undefined`) and prints an info line; a rejected
item prints an error line and pushes nothing.  The loop itself never
throws. -/
def putFullServices (o : Oracle) (serviceEntries : List (String × FullService))
    (clean : Bool) : List (Option FullService) × List Event :=
  match serviceEntries with
  | [] => ([], [])
  | (id, data) :: rest =>
    let r := putFullService o id data clean
    let restRes := putFullServices o rest clean
    match r.result with
    | .ok result =>
        (result :: restRes.1,
          r.events ++ [Event.print ("Imported: " ++ id) "info"] ++ restRes.2)
    | .error e =>
        (restRes.1,
          r.events ++ [Event.print ("Import service " ++ id ++ ": " ++ optMsg e.respMessage)
            "error"] ++ restRes.2)

/-- `importServices(importData, clean)`: `Object.entries` of the in-memory
envelope (which cannot fail) fed to `putFullServices`.  The source wraps the
call in a try/catch that rethrows, but `putFullServices` catches every
per-item error itself, so the rethrow path cannot fire and the call always
resolves with the collected results. -/
def importServices (o : Oracle) (importData : ServiceExportInterface) (clean : Bool) :
    Except Err (List (Option FullService)) × List Event :=
  let r := putFullServices o importData.service clean
  (.ok r.1, r.2)

/-- The error-level console messages of a trace: the operator-facing failure
list. -/
def printedErrors (evs : List Event) : List String :=
  evs.filterMap (fun e =>
    match e with
    | Event.print m lvl => if lvl = "error" then some m else none
    | _ => none)

/-- Whether an event is a child write (`putServiceNextDescendent` call). -/
def isPutDescendentEvent : Event → Bool
  | Event.putDescendent _ _ _ _ => true
  | _ => false

/-- The failure-list entry one item of the `getFullServices` fan-out
contributes: the printed message for a non-capability-gap fetch failure,
nothing for a success or a capability-gap failure. -/
def fetchFailMsg (o : Oracle) (listItem : FullService) : Option String :=
  match fetchItemErr o listItem with
  | some e =>
    if isCloudGap e then none
    else some ("Unable to retrieve data for " ++ listItem._id ++ " with error: "
      ++ optMsg e.respMessage)
  | none => none

/-- The value a settled item contributes to the batch result list of
`putFullServices`: its resolution value, or nothing when it rejected. -/
def resultValue : Except Err (Option FullService) → Option (Option FullService)
  | .ok r => some r
  | .error _ => none

end ServiceOps

namespace ScriptOps

open ServiceOps (Err)

/-- Leading decimal digits of a character list, split off the front.  The
caller works on the reversed name, so the digits come least significant
first. -/
def takeDigits : List Char → List Char × List Char
  | [] => ([], [])
  | c :: cs =>
    if c.isDigit then
      let (ds, rest) := takeDigits cs
      (c :: ds, rest)
    else ([], c :: cs)

/-- The value of a least-significant-first digit list. -/
def digitsValueRev (ds : List Char) : Nat :=
  ds.foldr (fun c acc => acc * 10 + (c.toNat - 48)) 0

/-- Modelled from the spec: `applyNameCollisionPolicy` (ops/utils/OpsUtils) is
not among the repository files provided.  Per spec section 4.2 the renaming
policy probes `<base> - imported (<n>)` for increasing `n`, and the source
warns `<name> => <name - imported (n)>`: a name already carrying the suffix
moves on to the next `n`; any other name receives the suffix with `n = 1`. -/
def applyNameCollisionPolicy (name : String) : String :=
  match name.data.reverse with
  | ')' :: rest =>
    let (ds, rest2) := takeDigits rest
    let sfxRev := (" - imported (".data).reverse
    if ds ≠ [] ∧ rest2.take sfxRev.length = sfxRev then
      String.mk ((rest2.drop sfxRev.length).reverse)
        ++ " - imported (" ++ toString (digitsValueRev ds + 1) ++ ")"
    else name ++ " - imported (1)"
  | _ => name ++ " - imported (1)"

/-- A script object as `createOrUpdateScript` handles it: the `name` field it
reads and rewrites, the rest opaque. -/
structure ScriptData where
  name : String
  payload : List (String × String)
deriving Repr, DecidableEq

/-- One remote call or console print of the script import path. -/
inductive SEvent where
  | putScript (scriptId : String) (body : ScriptData)
  | print (msg level : String)
deriving Repr, DecidableEq

/-- The script backend (src/api/ScriptApi.ts `putScript`) as a deterministic
oracle. -/
structure ScriptOracle where
  putScript : String → ScriptData → Except Err Unit

/-- `error.message` as the source interpolates it for non-conflict errors. -/
def errText : Err → String
  | .http _ m => m
  | .typeError m => m

/-- The status object `createOrUpdateScript` resolves to. -/
structure ScriptResult where
  error : Bool
  name : String
deriving Repr, DecidableEq

/-- `createOrUpdateScript(id, data)`: try `putScript`; on a 409 conflict,
warn, rename `data.name` in place through `applyNameCollisionPolicy` and
recurse on the same (mutated) object, then report success with the object's
final name, discarding the recursive call's own status; on any other error,
report `{error: true}`.  The JS recursion is bounded only by the conflicts it
keeps hitting, so it takes a fuel argument here; `none` models a run whose
conflicts outlast the fuel.  The returned triple is (status object, trace,
final state of the caller's aliased `data`). -/
def createOrUpdateScript (o : ScriptOracle) (id : String) :
    Nat → ScriptData → Option (ScriptResult × List SEvent × ScriptData)
  | 0, _ => none
  | fuel + 1, data =>
    match o.putScript id data with
    | .ok _ => some (⟨false, data.name⟩, [SEvent.putScript id data], data)
    | .error e =>
      if e.status = some 409 then
        let data2 := { data with name := applyNameCollisionPolicy data.name }
        match createOrUpdateScript o id fuel data2 with
        | none => none
        | some (_inner, evs, dataF) =>
          some (⟨false, dataF.name⟩,
            SEvent.putScript id data
              :: SEvent.print
                  ("createOrUpdateScript WARNING: script with name " ++ data.name
                    ++ " already exists, using renaming policy... <name> => <name - imported (n)>")
                  "warn"
              :: SEvent.print ("Trying to save script as " ++ data2.name) "warn"
              :: evs,
            dataF)
      else
        some (⟨true, data.name⟩,
          [SEvent.putScript id data,
            SEvent.print
              ("createOrUpdateScript ERROR: put script error, script " ++ id ++ " - "
                ++ errText e)
              "error"],
          data)

/-- The successive script names attempted by a trace's `putScript` calls. -/
def attemptNames (evs : List SEvent) : List String :=
  evs.filterMap (fun e =>
    match e with
    | SEvent.putScript _ body => some body.name
    | _ => none)

/-- The renaming policy iterated `k` times. -/
def iterPolicy : Nat → String → String
  | 0, n => n
  | k + 1, n => iterPolicy k (applyNameCollisionPolicy n)

/-- Whether a `putScript` outcome is the 409 conflict the source's catch
matches. -/
def isConflictOutcome : Except Err Unit → Bool
  | .error e => e.status = some 409
  | .ok _ => false

/-- Whether a `putScript` outcome is any rejection. -/
def isErrorOutcome : Except Err Unit → Bool
  | .error _ => true
  | .ok _ => false

end ScriptOps

namespace ExportImportUtils

/-- Modelled from the spec: `convertBase64TextToArray`
(ops/utils/ExportImportUtils) is not among the repository files provided.
Per spec section 4.1 the export-side content transform encodes a
byte-accurate text blob (modelled as its character list) into its sequence
of lines, and empty content encodes to the empty sequence, not an error. -/
def convertBase64TextToArray (blob : List Char) : List (List Char) :=
  if blob = [] then [] else blob.splitOn '\n'

/-- Modelled from the spec: `convertTextArrayToBase64`
(ops/utils/ExportImportUtils) is not among the repository files provided.
Per spec section 4.1 the import-side transform decodes the line sequence
back into the blob, reinserting the line separator. -/
def convertTextArrayToBase64 (lines : List (List Char)) : List Char :=
  List.intercalate ['\n'] lines

end ExportImportUtils

/-! ## Concrete fixtures

Small concrete oracles and payloads used by the counterexamples and the
witnesses. -/

namespace Fix

open ServiceOps ScriptOps

/-- Child `{type: "a", id: "c1"}`. -/
def descC1 : ServiceNextDescendent := ⟨"c1", ⟨"a"⟩, []⟩

/-- Child `{type: "b", id: "c2"}`. -/
def descC2 : ServiceNextDescendent := ⟨"c2", ⟨"b"⟩, []⟩

/-- A service body carrying both backend-assigned fields and two
descendents. -/
def svc1Data : FullService :=
  ⟨"svc1", ⟨"svc1type"⟩, some "1", some true, some [descC1, descC2], [("k", "v")]⟩

/-- The same body with an empty descendent list. -/
def svc1NoDesc : FullService := { svc1Data with nextDescendents := some [] }

/-- The same body with the `nextDescendents` key absent. -/
def svc1Absent : FullService := { svc1Data with nextDescendents := none }

/-- A backend where everything succeeds; `svc1` has children `c1, c2`. -/
def oOk : Oracle where
  getListOfServices := .ok []
  getService := fun _ => .error (Err.http 404 "Not Found")
  getServiceDescendents := fun sid => if sid = "svc1" then .ok [descC1, descC2] else .ok []
  putService := fun _ d => .ok d
  putServiceNextDescendent := fun _ _ _ d => .ok d
  deleteService := fun _ => .ok ()
  deleteServiceNextDescendent := fun _ _ _ => .ok ()

/-- Like `oOk` but deleting child `c1` fails transiently (HTTP 500). -/
def oDelFail : Oracle :=
  { oOk with
    deleteServiceNextDescendent := fun _ _ did =>
      if did = "c1" then .error (Err.http 500 "boom") else .ok () }

/-- Like `oOk` but the whole tree at `svc1` is absent: the pre-clean's
descendent listing rejects with 404 / Not Found. -/
def oAbsent : Oracle :=
  { oOk with getServiceDescendents := fun _ => .error (Err.http 404 "Not Found") }

/-- An envelope holding `svc1Data` under id `svc1`. -/
def env1 : ServiceExportInterface := ⟨[], [("svc1", svc1Data)]⟩

/-- A bare service body under a given id, as a backend would return it. -/
def svcBody (id : String) : FullService := ⟨id, ⟨id ++ "type"⟩, none, none, none, []⟩

/-- A backend for the batch export: three listed services, where fetching
`a` succeeds, fetching `b` fails with the exact capability-gap signature,
and fetching `c` fails transiently. -/
def oMix : Oracle :=
  { oOk with
    getListOfServices := .ok [svcBody "a", svcBody "b", svcBody "c"]
    getService := fun sid =>
      if sid = "b" then
        .error (Err.http 403 "This operation is not available in ForgeRock Identity Cloud.")
      else if sid = "c" then .error (Err.http 500 "boom")
      else .ok (svcBody sid)
    getServiceDescendents := fun _ => .ok [descC1] }

/-- A script backend where the names `a` and `a - imported (1)` are taken
(putScript conflicts with HTTP 409) and any other name is free. -/
def oConflict2 : ScriptOracle :=
  ⟨fun _ data =>
    if data.name = "a" ∨ data.name = "a - imported (1)" then
      .error (Err.http 409 "Conflict")
    else .ok ()⟩

/-- The script whose import hits two conflicts on `oConflict2`. -/
def scriptA : ScriptData := ⟨"a", []⟩

/-- The same aliased script object after the two renames. -/
def scriptA2 : ScriptData := ⟨"a - imported (2)", []⟩

/-- The trace of importing `scriptA` against `oConflict2`: three put
attempts, the later two after warn-and-rename. -/
def conflictTrace : List SEvent :=
  [SEvent.putScript "s1" scriptA,
    SEvent.print
      ("createOrUpdateScript WARNING: script with name a already exists, using renaming policy... <name> => <name - imported (n)>")
      "warn",
    SEvent.print "Trying to save script as a - imported (1)" "warn",
    SEvent.putScript "s1" ⟨"a - imported (1)", []⟩,
    SEvent.print
      ("createOrUpdateScript WARNING: script with name a - imported (1) already exists, using renaming policy... <name> => <name - imported (n)>")
      "warn",
    SEvent.print "Trying to save script as a - imported (2)" "warn",
    SEvent.putScript "s1" scriptA2]

end Fix

/-! ## Theorems settling the claims -/

open ServiceOps ScriptOps ExportImportUtils Fix

/-- The full-tree delete prints nothing itself: its failure surfaces only as
the rejection its caller observes. -/
theorem printedErrors_deleteFullService (o : Oracle) (sid : String) :
    printedErrors (deleteFullService o sid).2 = [] := by
  unfold deleteFullService
  split
  · simp [printedErrors]
  · split
    · simp [printedErrors, List.filterMap_map]
    · split <;> simp [printedErrors, List.filterMap_append, List.filterMap_map]

/-- The full-tree delete issues no child writes. -/
theorem deleteFullService_no_putDescendent (o : Oracle) (sid : String) :
    ∀ ev ∈ (deleteFullService o sid).2, isPutDescendentEvent ev = false := by
  unfold deleteFullService
  split
  · simp [isPutDescendentEvent]
  · split
    · intro ev hev
      rcases List.mem_cons.mp hev with h | h
      · subst h; rfl
      · obtain ⟨d, _, rfl⟩ := List.mem_map.mp h
        rfl
    · split <;>
      · intro ev hev
        rcases List.mem_cons.mp hev with h | h
        · subst h; rfl
        · rcases List.mem_append.mp h with h | h
          · obtain ⟨d, _, rfl⟩ := List.mem_map.mp h
            rfl
          · rcases List.mem_singleton.mp h with rfl
            rfl

/-- Whatever the pre-clean and descendent outcomes, `putFullService` issues
the parent write with the stripped body. -/
theorem putSvc_mem_putFullService (o : Oracle) (sid : String) (data : FullService)
    (clean : Bool) :
    Event.putSvc sid (stripServiceData data) ∈ (putFullService o sid data clean).events := by
  cases hp : o.putService sid (stripServiceData data) with
  | error e => simp [putFullService, hp]
  | ok r =>
    cases hnd : data.nextDescendents with
    | none => simp [putFullService, hp, hnd]
    | some l =>
      cases l with
      | nil => simp [putFullService, hp, hnd]
      | cons d ds => simp [putFullService, hp, hnd]

/-- The pre-clean block issues no child writes either. -/
theorem cleanPhase_no_putDescendent (o : Oracle) (sid : String) :
    ∀ ev ∈ cleanPhase o sid, isPutDescendentEvent ev = false := by
  have hd := deleteFullService_no_putDescendent o sid
  unfold cleanPhase
  cases h : deleteFullService o sid with
  | mk r evs =>
    rw [h] at hd
    simp only at hd
    cases r with
    | ok u => exact hd
    | error e =>
      cases hnf : isNotFound e <;> simp only [hnf]
      · intro ev hev
        rcases List.mem_append.mp hev with h2 | h2
        · exact hd ev h2
        · rcases List.mem_singleton.mp h2 with rfl
          rfl
      · exact hd

/-- C5: the script content transform is reversible and total — decoding the
line sequence produced for any text blob yields the identical blob, and
empty content encodes to the empty sequence rather than failing. -/
theorem convert_script_roundtrip :
    ∀ blob : List Char,
      convertTextArrayToBase64 (convertBase64TextToArray blob) = blob
        ∧ convertBase64TextToArray [] = [] := by
  intro blob
  refine ⟨?_, rfl⟩
  by_cases h : blob = []
  · subst h
    simp [convertBase64TextToArray, convertTextArrayToBase64, List.intercalate]
  · simp [convertBase64TextToArray, convertTextArrayToBase64, h, List.intercalate_splitOn]

/-- C1 counterexample: for the tree `svc1` with children `c1, c2` where the
`c1` delete fails transiently, `c2`'s delete is still issued, but
`deleteFullService` rejects with the child failure and the parent delete is
never attempted — refuting the claim's clause that the parent delete is
attempted regardless of the child-delete outcomes. -/
theorem deleteFullService_parent_delete_skipped_cex :
    deleteFullService oDelFail "svc1" =
        (.error (Err.http 500 "boom"),
          [Event.getDescendents "svc1",
            Event.deleteDescendent "svc1" "a" "c1",
            Event.deleteDescendent "svc1" "b" "c2"])
      ∧ Event.deleteSvc "svc1" ∉ (deleteFullService oDelFail "svc1").2 :=
  ⟨by decide, by decide⟩

/-- C1 (amended): after listing the current children, `deleteFullService`
issues every child delete (a failure deleting one child does not keep any
other child delete from being issued), but the parent delete is attempted
exactly when every child delete succeeded; when some child delete fails the
call rejects without attempting the parent delete. -/
theorem deleteFullService_children_isolated_parent_conditional :
    ∀ (o : Oracle) (serviceId : String) (descs : List ServiceNextDescendent),
      o.getServiceDescendents serviceId = .ok descs →
      (∀ d ∈ descs,
          Event.deleteDescendent serviceId d._type._id d._id ∈ (deleteFullService o serviceId).2)
        ∧ (Event.deleteSvc serviceId ∈ (deleteFullService o serviceId).2 ↔
            firstError (descs.map (fun d =>
              o.deleteServiceNextDescendent serviceId d._type._id d._id)) = none) := by
  intro o serviceId descs h
  unfold deleteFullService
  rw [h]
  cases hfe : firstError (descs.map (fun d =>
      o.deleteServiceNextDescendent serviceId d._type._id d._id)) with
  | some e =>
    simp only [hfe]
    constructor
    · intro d hd
      exact List.mem_cons_of_mem _ (List.mem_map_of_mem _ hd)
    · simp [List.mem_map]
  | none =>
    simp only [hfe]
    cases hds : o.deleteService serviceId with
    | error e =>
      simp only [hds]
      constructor
      · intro d hd
        exact List.mem_cons_of_mem _ (List.mem_append_left _ (List.mem_map_of_mem _ hd))
      · simp
    | ok u =>
      simp only [hds]
      constructor
      · intro d hd
        exact List.mem_cons_of_mem _ (List.mem_append_left _ (List.mem_map_of_mem _ hd))
      · simp

/-- C1 witness: the amended theorem applied to the concrete failing-child
backend. -/
theorem deleteFullService_children_isolated_parent_conditional_witness :
    (∀ d ∈ [descC1, descC2],
        Event.deleteDescendent "svc1" d._type._id d._id ∈ (deleteFullService oDelFail "svc1").2)
      ∧ (Event.deleteSvc "svc1" ∈ (deleteFullService oDelFail "svc1").2 ↔
          firstError ([descC1, descC2].map (fun d =>
            oDelFail.deleteServiceNextDescendent "svc1" d._type._id d._id)) = none) :=
  deleteFullService_children_isolated_parent_conditional oDelFail "svc1" [descC1, descC2]
    (by decide)

/-- C6: with the clean flag set, a pre-clean delete failing with 404 / Not
Found is swallowed silently (the block prints nothing), any other pre-clean
failure is logged as an error but does not abort the import, and in every
pre-clean outcome the parent create is still issued. -/
theorem putFullService_preclean_isolation :
    ∀ (o : Oracle) (sid : String) (data : FullService),
      (∀ e, (deleteFullService o sid).1 = .error e → isNotFound e = true →
          printedErrors (cleanPhase o sid) = [])
        ∧ (∀ e, (deleteFullService o sid).1 = .error e → isNotFound e = false →
            printedErrors (cleanPhase o sid) =
              ["Error deleting service " ++ sid ++ " before import: " ++ optMsg e.respMessage])
        ∧ Event.putSvc sid (stripServiceData data) ∈ (putFullService o sid data true).events := by
  intro o sid data
  have hnil := printedErrors_deleteFullService o sid
  refine ⟨?_, ?_, putSvc_mem_putFullService o sid data true⟩
  · intro e he hnf
    unfold cleanPhase
    cases h : deleteFullService o sid with
    | mk r evs =>
      rw [h] at he hnil
      simp only at he hnil
      subst he
      simp only [hnf, if_true]
      exact hnil
  · intro e he hnf
    unfold cleanPhase
    cases h : deleteFullService o sid with
    | mk r evs =>
      rw [h] at he hnil
      simp only at he hnil
      subst he
      simp [hnf, printedErrors, List.filterMap_append, hnil]
      simp [printedErrors] at hnil
      exact hnil

/-- C7: the parent write completes before any child write — when the parent
put rejects, the whole import rejects with that error and no child write is
ever issued; and in every run the trace splits at the parent write, with no
child write anywhere before it. -/
theorem putFullService_parent_write_first :
    ∀ (o : Oracle) (sid : String) (data : FullService) (clean : Bool),
      (∀ e, o.putService sid (stripServiceData data) = .error e →
          (putFullService o sid data clean).result = .error e
            ∧ ∀ ev ∈ (putFullService o sid data clean).events, isPutDescendentEvent ev = false)
        ∧ ∃ pre post,
            (putFullService o sid data clean).events
                = pre ++ Event.putSvc sid (stripServiceData data) :: post
              ∧ ∀ ev ∈ pre, isPutDescendentEvent ev = false := by
  intro o sid data clean
  have hpre : ∀ ev ∈ (if clean then cleanPhase o sid else []), isPutDescendentEvent ev = false := by
    cases clean
    · simp
    · simpa using cleanPhase_no_putDescendent o sid
  constructor
  · intro e hp
    constructor
    · simp [putFullService, hp]
    · intro ev hev
      simp only [putFullService, hp] at hev
      rcases List.mem_append.mp hev with h | h
      · exact hpre ev h
      · rcases List.mem_singleton.mp h with rfl
        rfl
  · cases hp : o.putService sid (stripServiceData data) with
    | error e =>
      refine ⟨(if clean then cleanPhase o sid else []), [], ?_, hpre⟩
      simp [putFullService, hp]
    | ok r =>
      cases hnd : data.nextDescendents with
      | none =>
        refine ⟨(if clean then cleanPhase o sid else []), [], ?_, hpre⟩
        simp [putFullService, hp, hnd]
      | some l =>
        cases l with
        | nil =>
          refine ⟨(if clean then cleanPhase o sid else []), [], ?_, hpre⟩
          simp [putFullService, hp, hnd]
        | cons d ds =>
          refine ⟨(if clean then cleanPhase o sid else []),
            ((d :: ds).map (putDescItem o sid)).flatten, ?_, hpre⟩
          simp [putFullService, hp, hnd]

/-- The three field deletions happen before anything can throw, so the
caller's aliased object ends up stripped in every outcome. -/
theorem dataAfter_putFullService (o : Oracle) (sid : String) (data : FullService)
    (clean : Bool) :
    (putFullService o sid data clean).dataAfter = stripServiceData data := by
  cases hp : o.putService sid (stripServiceData data) with
  | error e => simp [putFullService, hp]
  | ok r =>
    cases hnd : data.nextDescendents with
    | none => simp [putFullService, hp, hnd]
    | some l =>
      cases l with
      | nil => simp [putFullService, hp, hnd]
      | cons d ds => simp [putFullService, hp, hnd]

/-- C9: a successful single-resource import whose data carries at least one
descendent resolves to `undefined` rather than the created parent resource;
only the zero-descendents path returns the parent put's result; and
`importService` passes `putFullService`'s resolution through unchanged. -/
theorem putFullService_descendents_resolve_undefined :
    ∀ (o : Oracle) (sid : String) (data : FullService) (clean : Bool) (r : FullService),
      o.putService sid (stripServiceData data) = .ok r →
      (∀ d ds, data.nextDescendents = some (d :: ds) →
          (putFullService o sid data clean).result = .ok none)
        ∧ (data.nextDescendents = some [] →
            (putFullService o sid data clean).result = .ok (some r))
        ∧ (∀ env : ServiceExportInterface,
            lookupEntry env.service sid = some data →
            (importService o sid env clean).result = (putFullService o sid data clean).result) := by
  intro o sid data clean r hp
  refine ⟨?_, ?_, ?_⟩
  · intro d ds hnd
    simp [putFullService, hp, hnd]
  · intro hnd
    simp [putFullService, hp, hnd]
  · intro env henv
    simp [importService, henv]

/-- C9 witness: the theorem applied to the all-succeeding backend and a body
with two descendents. -/
theorem putFullService_descendents_resolve_undefined_witness :
    (∀ d ds, svc1Data.nextDescendents = some (d :: ds) →
        (putFullService oOk "svc1" svc1Data false).result = .ok none)
      ∧ (svc1Data.nextDescendents = some [] →
          (putFullService oOk "svc1" svc1Data false).result
            = .ok (some (stripServiceData svc1Data)))
      ∧ (∀ env : ServiceExportInterface,
          lookupEntry env.service "svc1" = some svc1Data →
          (importService oOk "svc1" env false).result
            = (putFullService oOk "svc1" svc1Data false).result) :=
  putFullService_descendents_resolve_undefined oOk "svc1" svc1Data false
    (stripServiceData svc1Data) (by decide)

/-- C10: with the `nextDescendents` key absent and the parent put
succeeding, `putFullService` rejects with the TypeError from reading
`.length` of `undefined` — after the parent write was already issued. -/
theorem putFullService_absent_descendents_throws :
    ∀ (o : Oracle) (sid : String) (data : FullService) (clean : Bool) (r : FullService),
      data.nextDescendents = none →
      o.putService sid (stripServiceData data) = .ok r →
      (putFullService o sid data clean).result =
          .error (Err.typeError "Cannot read properties of undefined, reading length")
        ∧ Event.putSvc sid (stripServiceData data) ∈ (putFullService o sid data clean).events := by
  intro o sid data clean r hnd hp
  exact ⟨by simp [putFullService, hp, hnd], putSvc_mem_putFullService o sid data clean⟩

/-- C10 witness: the theorem applied to a body lacking `nextDescendents` on
the all-succeeding backend. -/
theorem putFullService_absent_descendents_throws_witness :
    (putFullService oOk "svc1" svc1Absent false).result =
        .error (Err.typeError "Cannot read properties of undefined, reading length")
      ∧ Event.putSvc "svc1" (stripServiceData svc1Absent)
          ∈ (putFullService oOk "svc1" svc1Absent false).events :=
  putFullService_absent_descendents_throws oOk "svc1" svc1Absent false
    (stripServiceData svc1Absent) (by decide) (by decide)

/-- C3 counterexample: importing the concrete envelope `env1` leaves the
caller's envelope changed — its `svc1` entry has been stripped in place
(`_rev` was `some "1"` before the call and is gone after), refuting the
claim that the input envelope is consumed read-only and never mutated. -/
theorem importService_mutates_input_cex :
    (importService oOk "svc1" env1 false).importDataAfter ≠ env1
      ∧ lookupEntry (importService oOk "svc1" env1 false).importDataAfter.service "svc1"
          = some (stripServiceData svc1Data)
      ∧ (stripServiceData svc1Data)._rev = none ∧ svc1Data._rev = some "1" :=
  ⟨by decide, by decide, by decide, by decide⟩

/-- C3 (amended): the import mutates the caller's envelope entry in place
before the parent write: after the call the entry's `nextDescendents`,
`_rev` and `enabled` keys are deleted, while its identity and all other
fields are untouched; the envelope the caller holds afterwards is the input
with that one entry stripped, not an unchanged input. -/
theorem importService_strips_entry_in_place :
    ∀ (o : Oracle) (sid : String) (env : ServiceExportInterface) (clean : Bool)
      (data : FullService),
      lookupEntry env.service sid = some data →
      (importService o sid env clean).importDataAfter
          = { env with service := replaceEntry env.service sid (stripServiceData data) }
        ∧ (stripServiceData data).nextDescendents = none
        ∧ (stripServiceData data)._rev = none
        ∧ (stripServiceData data).enabled = none
        ∧ (stripServiceData data)._id = data._id
        ∧ (stripServiceData data)._type = data._type
        ∧ (stripServiceData data).payload = data.payload := by
  intro o sid env clean data h
  refine ⟨?_, rfl, rfl, rfl, rfl, rfl, rfl⟩
  simp [importService, h, dataAfter_putFullService]

/-- C3 witness: the amended theorem applied to the concrete envelope. -/
theorem importService_strips_entry_in_place_witness :
    (importService oOk "svc1" env1 false).importDataAfter
        = { env1 with service := replaceEntry env1.service "svc1" (stripServiceData svc1Data) }
      ∧ (stripServiceData svc1Data).nextDescendents = none
      ∧ (stripServiceData svc1Data)._rev = none
      ∧ (stripServiceData svc1Data).enabled = none
      ∧ (stripServiceData svc1Data)._id = svc1Data._id
      ∧ (stripServiceData svc1Data)._type = svc1Data._type
      ∧ (stripServiceData svc1Data).payload = svc1Data.payload :=
  importService_strips_entry_in_place oOk "svc1" env1 false svc1Data (by decide)

/-- C8: in a batch import, every entry is attempted (the parent write of
each entry appears in the trace no matter how the other entries fared), the
result list collects exactly the resolutions of the entries that settled
successfully, and the batch call itself resolves — `importServices` returns
`.ok` of the collected results rather than raising for the whole set. -/
theorem putFullServices_partial_failure_isolation :
    ∀ (o : Oracle) (entries : List (String × FullService)) (clean : Bool)
      (env : ServiceExportInterface),
      (putFullServices o entries clean).1
          = entries.filterMap (fun p => resultValue (putFullService o p.1 p.2 clean).result)
        ∧ (∀ p ∈ entries,
            Event.putSvc p.1 (stripServiceData p.2) ∈ (putFullServices o entries clean).2)
        ∧ (importServices o env clean).1 = .ok (putFullServices o env.service clean).1 := by
  intro o entries clean env
  refine ⟨?_, ?_, rfl⟩
  · induction entries with
    | nil => rfl
    | cons p rest ih =>
      obtain ⟨id, data⟩ := p
      cases hr : (putFullService o id data clean).result with
      | ok r => simp [putFullServices, List.filterMap_cons, resultValue, hr, ih]
      | error e => simp [putFullServices, List.filterMap_cons, resultValue, hr, ih]
  · induction entries with
    | nil => intro p hp; cases hp
    | cons q rest ih =>
      intro p hp
      obtain ⟨id, data⟩ := q
      rcases List.mem_cons.mp hp with rfl | hmem
      · cases hr : (putFullService o id data clean).result with
        | ok r =>
          simp only [putFullServices, hr]
          exact List.mem_append_left _ (List.mem_append_left _
            (putSvc_mem_putFullService o id data clean))
        | error e =>
          simp only [putFullServices, hr]
          exact List.mem_append_left _ (List.mem_append_left _
            (putSvc_mem_putFullService o id data clean))
      · cases hr : (putFullService o id data clean).result with
        | ok r =>
          simp only [putFullServices, hr]
          exact List.mem_append_right _ (ih p hmem)
        | error e =>
          simp only [putFullServices, hr]
          exact List.mem_append_right _ (ih p hmem)

/-- One export fan-out item prints exactly its failure-list entry: nothing
on success, nothing on a capability-gap failure, the one error line
otherwise. -/
theorem printedErrors_fetchItemEvents (o : Oracle) (li : FullService) :
    printedErrors (fetchItemEvents o li) = (fetchFailMsg o li).toList := by
  unfold fetchItemEvents fetchFailMsg
  cases he : fetchItemErr o li with
  | none => simp [printedErrors]
  | some e =>
    cases hg : isCloudGap e <;>
      simp [hg, printedErrors, List.filterMap_append]

/-- C4: in the batch export, the succeeded list holds exactly the items
whose fetches succeeded (a failing item contributes zero entries, and no
failure removes the other items' results), the failure list holds exactly
the non-capability-gap failures, a failing item never reaches the succeeded
list, a capability-gap failure contributes zero entries to the failure
list, and every other failure is surfaced with its message. -/
theorem getFullServices_capability_gap_filtering :
    ∀ (o : Oracle) (slist : List FullService),
      o.getListOfServices = .ok slist →
      (getFullServices o).1 = .ok (slist.filterMap (fetchItemValue o))
        ∧ printedErrors (getFullServices o).2 = slist.filterMap (fetchFailMsg o)
        ∧ (∀ li e, fetchItemErr o li = some e → fetchItemValue o li = none)
        ∧ (∀ li e, fetchItemErr o li = some e → isCloudGap e = true →
            fetchFailMsg o li = none)
        ∧ (∀ li e, fetchItemErr o li = some e → isCloudGap e = false →
            fetchFailMsg o li = some ("Unable to retrieve data for " ++ li._id
              ++ " with error: " ++ optMsg e.respMessage)) := by
  intro o slist h
  refine ⟨?_, ?_, ?_, ?_, ?_⟩
  · simp [getFullServices, h, List.reduceOption, List.filterMap_map]
  · simp only [getFullServices, h]
    have : ∀ l : List FullService,
        printedErrors (l.map (fetchItemEvents o)).flatten = l.filterMap (fetchFailMsg o) := by
      intro l
      induction l with
      | nil => rfl
      | cons x rest ih =>
        simp only [List.map_cons, List.flatten_cons, List.filterMap_cons, printedErrors,
          List.filterMap_append]
        rw [← printedErrors, ← printedErrors, printedErrors_fetchItemEvents, ih]
        cases hx : fetchFailMsg o x <;> simp [Option.toList]
    simp [printedErrors, List.filterMap_cons] at this ⊢
    exact this slist
  · intro li e he
    unfold fetchItemErr at he
    unfold fetchItemValue
    cases hg : o.getService li._id with
    | error e2 => rfl
    | ok s =>
      cases hd : o.getServiceDescendents li._id with
      | error e2 => rfl
      | ok ds => rw [hg, hd] at he; cases he
  · intro li e he hg
    simp [fetchFailMsg, he, hg]
  · intro li e he hg
    simp [fetchFailMsg, he, hg]

/-- C4 witness: the theorem applied to the concrete three-service backend
(one success, one capability-gap failure, one transient failure). -/
theorem getFullServices_capability_gap_filtering_witness :
    (getFullServices oMix).1
        = .ok ([svcBody "a", svcBody "b", svcBody "c"].filterMap (fetchItemValue oMix))
      ∧ printedErrors (getFullServices oMix).2
          = [svcBody "a", svcBody "b", svcBody "c"].filterMap (fetchFailMsg oMix)
      ∧ (∀ li e, fetchItemErr oMix li = some e → fetchItemValue oMix li = none)
      ∧ (∀ li e, fetchItemErr oMix li = some e → isCloudGap e = true →
          fetchFailMsg oMix li = none)
      ∧ (∀ li e, fetchItemErr oMix li = some e → isCloudGap e = false →
          fetchFailMsg oMix li = some ("Unable to retrieve data for " ++ li._id
            ++ " with error: " ++ optMsg e.respMessage)) :=
  getFullServices_capability_gap_filtering oMix [svcBody "a", svcBody "b", svcBody "c"]
    (by decide)

/-- C2 counterexample: against a backend where both `a` and
`a - imported (1)` are taken, the run whose first retry also conflicts is
not a hard failure — the resolver is invoked a second time, a third attempt
is made, and the call reports success under `a - imported (2)` after three
put attempts, refuting the claim that exactly one retry is made and a
conflicting retry is a hard failure. -/
theorem createOrUpdateScript_second_conflict_retries_cex :
    createOrUpdateScript oConflict2 "s1" 5 ⟨"a", []⟩ =
        some (⟨false, "a - imported (2)"⟩,
          [SEvent.putScript "s1" ⟨"a", []⟩,
            SEvent.print
              ("createOrUpdateScript WARNING: script with name a already exists, using renaming policy... <name> => <name - imported (n)>")
              "warn",
            SEvent.print "Trying to save script as a - imported (1)" "warn",
            SEvent.putScript "s1" ⟨"a - imported (1)", []⟩,
            SEvent.print
              ("createOrUpdateScript WARNING: script with name a - imported (1) already exists, using renaming policy... <name> => <name - imported (n)>")
              "warn",
            SEvent.print "Trying to save script as a - imported (2)" "warn",
            SEvent.putScript "s1" ⟨"a - imported (2)", []⟩],
          ⟨"a - imported (2)", []⟩)
      ∧ (createOrUpdateScript oConflict2 "s1" 5 ⟨"a", []⟩).map
            (fun t => (t.1.error, attemptNames t.2.1))
          = some (false, ["a", "a - imported (1)", "a - imported (2)"]) :=
  ⟨by decide, by decide⟩

/-- C2 (amended): a 409 conflict invokes the Collision Resolver and retries
with the resolved name, and each further conflict invokes the resolver
again on the renamed script and retries again — the attempts walk the
resolver's deterministic probe sequence until the first non-conflict
outcome (so a conflicting retry is probed further, not a hard failure);
only a non-conflict error on the very first attempt yields an error
status. -/
theorem createOrUpdateScript_deterministic_probing :
    ∀ (o : ScriptOracle) (id : String) (fuel : Nat) (data : ScriptData)
      (res : ScriptResult) (evs : List SEvent) (dataF : ScriptData),
      createOrUpdateScript o id fuel data = some (res, evs, dataF) →
      ∃ k : Nat,
        attemptNames evs = (List.range (k + 1)).map (fun i => iterPolicy i data.name)
          ∧ (∀ i < k,
              isConflictOutcome (o.putScript id { data with name := iterPolicy i data.name })
                = true)
          ∧ isConflictOutcome (o.putScript id { data with name := iterPolicy k data.name })
              = false
          ∧ dataF = { data with name := iterPolicy k data.name }
          ∧ res.name = iterPolicy k data.name
          ∧ (res.error = true ↔ k = 0 ∧ isErrorOutcome (o.putScript id data) = true) := by
  intro o id fuel
  induction fuel with
  | zero =>
    intro data res evs dataF h
    simp [createOrUpdateScript] at h
  | succ fuel ih =>
    intro data res evs dataF h
    cases hp : o.putScript id data with
    | ok u =>
      simp only [createOrUpdateScript, hp, Option.some.injEq, Prod.mk.injEq] at h
      obtain ⟨h1, h2, h3⟩ := h
      subst h1; subst h2; subst h3
      refine ⟨0, ?_, ?_, ?_, rfl, rfl, ?_⟩
      · rfl
      · intro i hi
        exact absurd hi (Nat.not_lt_zero i)
      · have he : ({ data with name := iterPolicy 0 data.name } : ScriptData) = data := rfl
        rw [he, hp]
        rfl
      · simp [hp, isErrorOutcome]
    | error e =>
      by_cases hc : e.status = some 409
      · simp only [createOrUpdateScript, hp, if_pos hc] at h
        cases hr : createOrUpdateScript o id fuel
            { data with name := applyNameCollisionPolicy data.name } with
        | none => rw [hr] at h; cases h
        | some t =>
          obtain ⟨inner, evs2, dataF2⟩ := t
          rw [hr] at h
          simp only [Option.some.injEq, Prod.mk.injEq] at h
          obtain ⟨h1, h2, h3⟩ := h
          subst h1; subst h2; subst h3
          obtain ⟨k, ha, hconf, hlast, hdf, hname, herr⟩ := ih _ inner evs2 dataF2 hr
          refine ⟨k + 1, ?_, ?_, ?_, ?_, ?_, ?_⟩
          · simp only [attemptNames] at ha
            simp [attemptNames, ha, List.range_succ_eq_map, List.map_map,
              Function.comp, iterPolicy]
          · intro i hi
            cases i with
            | zero =>
              have he : ({ data with name := iterPolicy 0 data.name } : ScriptData) = data := rfl
              rw [he, hp]
              simp [isConflictOutcome, hc]
            | succ j =>
              exact hconf j (by omega)
          · exact hlast
          · exact hdf
          · rw [hdf]
            rfl
          · simp
      · simp only [createOrUpdateScript, hp, if_neg hc, Option.some.injEq, Prod.mk.injEq] at h
        obtain ⟨h1, h2, h3⟩ := h
        subst h1; subst h2; subst h3
        refine ⟨0, ?_, ?_, ?_, rfl, rfl, ?_⟩
        · rfl
        · intro i hi
          exact absurd hi (Nat.not_lt_zero i)
        · have he : ({ data with name := iterPolicy 0 data.name } : ScriptData) = data := rfl
          rw [he, hp]
          simp [isConflictOutcome, hc]
        · simp [hp, isErrorOutcome]

/-- C2 witness: the amended theorem applied to the double-conflict run. -/
theorem createOrUpdateScript_deterministic_probing_witness :
    ∃ k : Nat,
      attemptNames conflictTrace = (List.range (k + 1)).map (fun i => iterPolicy i scriptA.name)
        ∧ (∀ i < k,
            isConflictOutcome
              (oConflict2.putScript "s1" { scriptA with name := iterPolicy i scriptA.name })
              = true)
        ∧ isConflictOutcome
            (oConflict2.putScript "s1" { scriptA with name := iterPolicy k scriptA.name })
            = false
        ∧ scriptA2 = { scriptA with name := iterPolicy k scriptA.name }
        ∧ (ScriptResult.mk false "a - imported (2)").name = iterPolicy k scriptA.name
        ∧ ((ScriptResult.mk false "a - imported (2)").error = true ↔
            k = 0 ∧ isErrorOutcome (oConflict2.putScript "s1" scriptA) = true) :=
  createOrUpdateScript_deterministic_probing oConflict2 "s1" 5 scriptA
    ⟨false, "a - imported (2)"⟩ conflictTrace scriptA2 (by decide)
